import Mathlib

/-!
Verification development for the ArgoCD deploy task scripts
(`argocd-deploy.py` and `update-gitops-repo.py`).

The Python sources are shallowly embedded:

* YAML values become the inductive `YVal`; Python subscripting, `in`
  tests, truthiness and `str()` conversion become `pyGet`, `pyIn`,
  `yTruthy` and `pyStr`.
* The two compiled regular expressions (`ARGOCD_OP_IN_PROGRESS_REGEX`
  and `ARGOCD_HEALTH_STATE_TRANSITIONED_FROM_HEALTHY_TO_DEGRADED`,
  both compiled with `re.DOTALL` and *without* `re.IGNORECASE`) become
  token lists over a small backtracking matcher `rmatch`.
* Each `sh` command invocation is an entry of an environment record
  (`ShEnv`); a failing invocation carries the text captured from the
  combined stdout/stderr streams and the `str()` of the raised
  `sh.ErrorReturnCode`.
* Python `raise` statements become `Except.error` values of type
  `PyExc`.  Note that almost every `raise` in the sources raises a
  *string* (`raise f"..."`), which in Python 3 itself raises
  `TypeError: exceptions must derive from BaseException`; such a raise
  is modelled as `PyExc.strRaise` with the string the code attempted
  to raise, and the `except RuntimeError` handler in `deploy`
  does not catch it.
-/

/-! ## Python-style exceptions -/

/-- A raised Python exception, as relevant to these scripts.
`strRaise s` models `raise f"..."` (the code attempts to raise the
string `s`; at runtime Python 3 turns this into a `TypeError`, so it
is *not* a `RuntimeError`). -/
inductive PyExc where
  | keyError (k : String)
  | typeError (m : String)
  | strRaise (s : String)
  | runtimeError (s : String)
  | yamlError
deriving DecidableEq, Repr

/-- Only `RuntimeError` is caught by the `except RuntimeError` handler
in either `deploy` function. -/
def PyExc.caughtByRuntimeHandler : PyExc → Bool
  | .runtimeError _ => true
  | _ => false

/-- The `str(error)` text for a caught `RuntimeError`. -/
def PyExc.text : PyExc → String
  | .keyError k => k
  | .typeError m => m
  | .strRaise s => s
  | .runtimeError s => s
  | .yamlError => "yaml error"

/-! ## Regular-expression embedding

`ARGOCD_OP_IN_PROGRESS_REGEX` is
`.*FailedPrecondition.*another\s+operation\s+is\s+already\s+in\s+progress`
and `ARGOCD_HEALTH_STATE_TRANSITIONED_FROM_HEALTHY_TO_DEGRADED` is
`.*level=fatal.*health\s+state\s+has\s+transitioned\s+from\s.+\s+to\s+Degraded`,
both compiled with `re.DOTALL` only, and applied with `re.match`
(anchored at the start, which the leading `.*` makes irrelevant; a
match need not extend to the end of the text).  The token language
below covers exactly the constructs used by the two patterns. -/

/-- One token of the two ArgoCD error patterns: a literal, `.*`, `.+`,
`\s` or `\s+` (with `re.DOTALL`, `.` matches every character). -/
inductive RElem where
  | lit (w : List Char)
  | anyStar
  | anyPlus
  | wsOne
  | wsPlus
deriving DecidableEq, Repr

/-- Python's `\s`: space, tab, newline, carriage return, form feed,
vertical tab. -/
def isPyWS (c : Char) : Bool :=
  c = ' ' || c = '\t' || c = '\n' || c = '\r' || c = '\x0c' || c = '\x0b'

/-- Holds when `pat` is a prefix of `text` (character-wise). -/
def prefixEq : List Char → List Char → Bool
  | [], _ => true
  | _ :: _, [] => false
  | a :: as, b :: bs => a == b && prefixEq as bs

/-- The suffixes of `cs` reachable by consuming zero or more leading
whitespace characters (the candidate continuation points of `\s*`). -/
def wsTails : List Char → List (List Char)
  | [] => [[]]
  | c :: rest => if isPyWS c then (c :: rest) :: wsTails rest else [c :: rest]

/-- Backtracking matcher: does some prefix of `cs` match the token
sequence `ps`?  (The regexes are applied with `re.match`, which does
not require the match to reach the end of the input; `\s+cont` is
matched as one whitespace character followed by `\s*cont`.) -/
def rmatch : List RElem → List Char → Bool
  | [], _ => true
  | .lit w :: ps, cs => prefixEq w cs && rmatch ps (cs.drop w.length)
  | .anyStar :: ps, cs => cs.tails.any fun t => rmatch ps t
  | .anyPlus :: ps, cs =>
      match cs with
      | [] => false
      | _ :: rest => rest.tails.any fun t => rmatch ps t
  | .wsOne :: ps, cs =>
      match cs with
      | [] => false
      | c :: rest => isPyWS c && rmatch ps rest
  | .wsPlus :: ps, cs =>
      match cs with
      | [] => false
      | c :: rest => isPyWS c && (wsTails rest).any fun t => rmatch ps t

/-- The regex `ARGOCD_OP_IN_PROGRESS_REGEX` as a token list. -/
def opInProgressPattern : List RElem :=
  [.anyStar, .lit "FailedPrecondition".toList, .anyStar,
   .lit "another".toList, .wsPlus, .lit "operation".toList, .wsPlus,
   .lit "is".toList, .wsPlus, .lit "already".toList, .wsPlus,
   .lit "in".toList, .wsPlus, .lit "progress".toList]

/-- The regex `ARGOCD_HEALTH_STATE_TRANSITIONED_FROM_HEALTHY_TO_DEGRADED` as a
token list. -/
def healthDegradedPattern : List RElem :=
  [.anyStar, .lit "level=fatal".toList, .anyStar,
   .lit "health".toList, .wsPlus, .lit "state".toList, .wsPlus,
   .lit "has".toList, .wsPlus, .lit "transitioned".toList, .wsPlus,
   .lit "from".toList, .wsOne, .anyPlus, .wsPlus,
   .lit "to".toList, .wsPlus, .lit "Degraded".toList]

/-- Classification of a failed sync attempt, per the spec's
`classifySyncError`. -/
inductive SyncErrorClass where
  | contention
  | fatal
deriving DecidableEq, Repr

/-- Classification of a failed health wait, per the spec's
`classifyHealthError`. -/
inductive HealthErrorClass where
  | degradedTransient
  | fatal
deriving DecidableEq, Repr

/-- Result of `re.match(ARGOCD_OP_IN_PROGRESS_REGEX, text)` tested for truthiness
in `_argocd_app_sync`'s handler. -/
def classifySyncError (text : String) : SyncErrorClass :=
  if rmatch opInProgressPattern text.toList then .contention else .fatal

/-- Result of `re.match(ARGOCD_HEALTH_STATE_TRANSITIONED_FROM_HEALTHY_TO_DEGRADED, text)`
tested for truthiness in `_argocd_app_wait_for_health`'s handler. -/
def classifyHealthError (text : String) : HealthErrorClass :=
  if rmatch healthDegradedPattern text.toList then .degradedTransient else .fatal

example : classifySyncError
    "time=x level=error msg=rpc error: code = FailedPrecondition desc = another operation is already in progress" =
    .contention := by decide

example : classifySyncError "some unrelated failure" = .fatal := by decide

example : classifyHealthError
    "time=x level=fatal msg=health state has transitioned from Progressing to Degraded" =
    .degradedTransient := by decide

/-! ## YAML values and Python operational semantics

`_get_deployed_host_urls` manipulates the values produced by
`yaml.load_all` with plain Python operations: subscripting (`v[k]`),
containment (`k in v`), truthiness (`if v:`), iteration
(`for x in v:`) and f-string interpolation.  Each of those is embedded
below, including the exceptions they raise on unsupported operands. -/

/-- A parsed YAML value.  Mapping keys in these manifests are strings. -/
inductive YVal where
  | null
  | b (v : Bool)
  | i (n : Int)
  | s (v : String)
  | list (xs : List YVal)
  | map (kvs : List (String × YVal))
deriving Repr

mutual
/-- Structural equality of YAML values. -/
def yBeq : YVal → YVal → Bool
  | .null, .null => true
  | .b a, .b c => a == c
  | .i a, .i c => a == c
  | .s a, .s c => a == c
  | .list a, .list c => yBeqList a c
  | .map a, .map c => yBeqMap a c
  | _, _ => false

/-- Elementwise structural equality of YAML sequences. -/
def yBeqList : List YVal → List YVal → Bool
  | [], [] => true
  | x :: xs, y :: ys => yBeq x y && yBeqList xs ys
  | _, _ => false

/-- Itemwise structural equality of YAML mappings. -/
def yBeqMap : List (String × YVal) → List (String × YVal) → Bool
  | [], [] => true
  | (k, v) :: xs, (k', v') :: ys => k == k' && yBeq v v' && yBeqMap xs ys
  | _, _ => false
end

instance : BEq YVal := ⟨yBeq⟩

/-- Python `==` between manifest values (structural; the manifests
compared here only ever compare strings and the strings inside
`hosts` lists). -/
def yEq (a b : YVal) : Bool := a == b

/-- Python truthiness: `None`, `False`, `0`, `""` and empty containers
are falsy, everything else truthy. -/
def yTruthy : YVal → Bool
  | .null => false
  | .b v => v
  | .i n => n != 0
  | .s v => v != ""
  | .list xs => !xs.isEmpty
  | .map kvs => !kvs.isEmpty

mutual
/-- Python `repr()` of a manifest value (used for values nested inside
containers by `str()`). -/
def pyRepr : YVal → String
  | .null => "None"
  | .b true => "True"
  | .b false => "False"
  | .i n => toString n
  | .s v => "'" ++ v ++ "'"
  | .list xs => "[" ++ pyReprList xs ++ "]"
  | .map kvs => "\x7b" ++ pyReprMap kvs ++ "\x7d"

/-- Comma-separated `repr` of list elements. -/
def pyReprList : List YVal → String
  | [] => ""
  | [x] => pyRepr x
  | x :: xs => pyRepr x ++ ", " ++ pyReprList xs

/-- Comma-separated `repr` of dict items. -/
def pyReprMap : List (String × YVal) → String
  | [] => ""
  | [(k, v)] => "'" ++ k ++ "': " ++ pyRepr v
  | (k, v) :: kvs => "'" ++ k ++ "': " ++ pyRepr v ++ ", " ++ pyReprMap kvs
end

/-- Python `str()` as used by f-string interpolation (`f"...{host}"`):
top-level strings are unquoted, containers use `repr` of their
elements. -/
def pyStr : YVal → String
  | .s v => v
  | v => pyRepr v

/-- First binding of key `k` in an association list (the embedded
mappings have distinct keys, as YAML mappings do). -/
def lookupStr (kvs : List (String × YVal)) (k : String) : Option YVal :=
  match kvs with
  | [] => none
  | (k', v) :: rest => if k' == k then some v else lookupStr rest k

/-- Python subscripting `v[k]` with a string key: mapping lookup
(`KeyError` when absent); every other operand raises `TypeError`. -/
def pyGet (v : YVal) (k : String) : Except PyExc YVal :=
  match v with
  | .map kvs =>
      match lookupStr kvs k with
      | some x => .ok x
      | none => .error (.keyError k)
  | .list _ => .error (.typeError "list indices must be integers or slices, not str")
  | .s _ => .error (.typeError "string indices must be integers")
  | _ => .error (.typeError "object is not subscriptable")

/-- Python containment `x in v`: key test on mappings, elementwise
equality on lists, substring test on strings; other containers raise
`TypeError`. -/
def pyIn (x : YVal) (v : YVal) : Except PyExc Bool :=
  match v with
  | .map kvs =>
      match x with
      | .s k => .ok (kvs.any fun kv => kv.1 == k)
      | .list _ => .error (.typeError "unhashable type: 'list'")
      | .map _ => .error (.typeError "unhashable type: 'dict'")
      | _ => .ok false
  | .list xs => .ok (xs.any fun e => yEq e x)
  | .s str =>
      match x with
      | .s sub => .ok (decide (sub.toList <:+: str.toList))
      | _ => .error (.typeError "'in <string>' requires string as left operand")
  | _ => .error (.typeError "argument of type is not iterable")

/-- Python iteration `for x in v`: lists yield elements, strings yield
one-character strings, dicts yield their keys; other values raise
`TypeError`. -/
def pyIter (v : YVal) : Except PyExc (List YVal) :=
  match v with
  | .list xs => .ok xs
  | .s str => .ok (str.toList.map fun c => .s (String.singleton c))
  | .map kvs => .ok (kvs.map fun kv => .s kv.1)
  | _ => .error (.typeError "object is not iterable")

instance {ε α : Type} [DecidableEq ε] [DecidableEq α] : DecidableEq (Except ε α) := fun a b =>
  match a, b with
  | .error x, .error y =>
      if h : x = y then isTrue (congrArg Except.error h)
      else isFalse fun hh => h (Except.error.inj hh)
  | .ok x, .ok y =>
      if h : x = y then isTrue (congrArg Except.ok h)
      else isFalse fun hh => h (Except.ok.inj hh)
  | .error _, .ok _ => isFalse fun hh => nomatch hh
  | .ok _, .error _ => isFalse fun hh => nomatch hh

/-! ## `_get_deployed_host_urls` -/

/-- One document of the manifest stream as produced by
`yaml.load_all`; `.error ()` stands for a document that fails YAML
parsing (the lazy iteration raises when it reaches it). -/
abbrev YDoc := Except Unit YVal

/-- The inner `for tls_config in manifest_resource['spec']['tls']`
loop of the Ingress branch: the first entry such that
`('hosts' in tls_config) and (host in tls_config['hosts'])` sets
`tls = True` and breaks. -/
def tlsEntryLoop (host : YVal) : List YVal → Except PyExc Bool
  | [] => .ok false
  | cfg :: rest =>
    match pyIn (.s "hosts") cfg with
    | .error e => .error e
    | .ok false => tlsEntryLoop host rest
    | .ok true =>
      match pyGet cfg "hosts" with
      | .error e => .error e
      | .ok hosts =>
        match pyIn host hosts with
        | .error e => .error e
        | .ok true => .ok true
        | .ok false => tlsEntryLoop host rest

/-- TLS determination for one Ingress rule host: `tls = False`, then
scan `spec['tls']` when the key is present. -/
def ingressTls (spec : YVal) (host : YVal) : Except PyExc Bool :=
  match pyIn (.s "tls") spec with
  | .error e => .error e
  | .ok false => .ok false
  | .ok true =>
    match pyGet spec "tls" with
    | .error e => .error e
    | .ok tlsVal =>
      match pyIter tlsVal with
      | .error e => .error e
      | .ok cfgs => tlsEntryLoop host cfgs

/-- The `for rule in ingress_rules` loop: one URL per rule that has a
`host`, in rule order. -/
def ingressRulesUrls (spec : YVal) : List YVal → Except PyExc (List String)
  | [] => .ok []
  | rule :: rest =>
    match pyIn (.s "host") rule with
    | .error e => .error e
    | .ok false => ingressRulesUrls spec rest
    | .ok true =>
      match pyGet rule "host" with
      | .error e => .error e
      | .ok host =>
        match ingressTls spec host with
        | .error e => .error e
        | .ok tls =>
          match ingressRulesUrls spec rest with
          | .error e => .error e
          | .ok restUrls =>
            .ok (((if tls then "https://" else "http://") ++ pyStr host) :: restUrls)

/-- The `if kind == 'Route' and api_version == 'route.openshift.io/v1'`
block: one URL when `spec` has a `host`, https exactly when `tls` is a
present and truthy key of `spec`. -/
def routeBranch (v : YVal) (kind apiVersion : YVal) : Except PyExc (List String) :=
  if yEq kind (.s "Route") && yEq apiVersion (.s "route.openshift.io/v1") then
    match pyGet v "spec" with
    | .error e => .error e
    | .ok spec =>
      match pyIn (.s "host") spec with
      | .error e => .error e
      | .ok false => .ok []
      | .ok true =>
        match pyGet spec "host" with
        | .error e => .error e
        | .ok host =>
          match pyIn (.s "tls") spec with
          | .error e => .error e
          | .ok hasTls =>
            let tlsRes : Except PyExc Bool :=
              if hasTls then
                match pyGet spec "tls" with
                | .error e => .error e
                | .ok tlsConfig => .ok (yTruthy tlsConfig)
              else .ok false
            match tlsRes with
            | .error e => .error e
            | .ok tls => .ok [(if tls then "https://" else "http://") ++ pyStr host]
  else .ok []

/-- The `if kind == 'Ingress' and api_version == 'networking.k8s.io/v1'`
block. -/
def ingressBranch (v : YVal) (kind apiVersion : YVal) : Except PyExc (List String) :=
  if yEq kind (.s "Ingress") && yEq apiVersion (.s "networking.k8s.io/v1") then
    match pyGet v "spec" with
    | .error e => .error e
    | .ok spec =>
      match pyGet spec "rules" with
      | .error e => .error e
      | .ok rulesVal =>
        match pyIter rulesVal with
        | .error e => .error e
        | .ok rules => ingressRulesUrls spec rules
  else .ok []

/-- The body of the `for manifest_resource in manifest_resources` loop
of `_get_deployed_host_urls`: the URLs one document appends to
`host_urls`.  A document that `is None` or has no `kind` is skipped;
otherwise `kind` and `apiVersion` are read (the latter unconditionally)
and the Route and Ingress blocks run in source order. -/
def processDoc (v : YVal) : Except PyExc (List String) :=
  match v with
  | .null => .ok []
  | v =>
    match pyIn (.s "kind") v with
    | .error e => .error e
    | .ok false => .ok []
    | .ok true =>
      match pyGet v "kind" with
      | .error e => .error e
      | .ok kind =>
        match pyGet v "apiVersion" with
        | .error e => .error e
        | .ok apiVersion =>
          match routeBranch v kind apiVersion with
          | .error e => .error e
          | .ok routeUrls =>
            match ingressBranch v kind apiVersion with
            | .error e => .error e
            | .ok ingressUrls => .ok (routeUrls ++ ingressUrls)

/-- Translation of `_get_deployed_host_urls`: process the parsed
documents in order, accumulating URLs; any exception (including a
parse failure reached by the lazy document iteration) aborts the whole
extraction. -/
def getDeployedHostUrls : List YDoc → Except PyExc (List String)
  | [] => .ok []
  | d :: ds =>
    match (match d with
           | .error _ => Except.error PyExc.yamlError
           | .ok v => processDoc v) with
    | .error e => .error e
    | .ok urls =>
      match getDeployedHostUrls ds with
      | .error e => .error e
      | .ok rest => .ok (urls ++ rest)

example :
    getDeployedHostUrls
      [.ok (.map [("kind", .s "Route"), ("apiVersion", .s "route.openshift.io/v1"),
        ("spec", .map [("host", .s "a.example.com"), ("tls", .map [("termination", .s "edge")])])]),
       .ok (.map [("kind", .s "Route"), ("apiVersion", .s "route.openshift.io/v1"),
        ("spec", .map [("host", .s "b.example.com")])]),
       .ok (.map [("kind", .s "Ingress"), ("apiVersion", .s "networking.k8s.io/v1"),
        ("spec", .map [
          ("tls", .list [.map [("hosts", .list [.s "c.example.com"])]]),
          ("rules", .list [.map [("host", .s "c.example.com")], .map [("host", .s "d.example.com")]])])]),
       .ok (.map [("kind", .s "ConfigMap"), ("apiVersion", .s "v1")]),
       .ok .null] =
    .ok ["https://a.example.com", "http://b.example.com",
         "https://c.example.com", "http://d.example.com"] := by decide

example : getDeployedHostUrls [] = .ok [] := by decide

example :
    getDeployedHostUrls [.ok (.map [("kind", .s "Route")])] =
    .error (.keyError "apiVersion") := by decide

/-! ## Spec-side endpoint extraction

The following definitions follow the wording of the spec
(`extractEndpoints`, §4.3/§8), not the source, and are compared with
the source translation `getDeployedHostUrls` by the refinement theorem
for C6. -/

/-- The exact host appears in this `tls` entry's `hosts` list. -/
def tlsCfgMatches (host : YVal) (cfg : YVal) : Bool :=
  match cfg with
  | .map ckvs =>
      match lookupStr ckvs "hosts" with
      | some (.list hosts) => hosts.any fun hh => yEq hh host
      | _ => false
  | _ => false

/-- Spec wording: an Ingress rule host gets https exactly when that
exact host appears in some entry's `hosts` list under `spec.tls`. -/
def specTlsForHost (spec : List (String × YVal)) (host : YVal) : Bool :=
  match lookupStr spec "tls" with
  | some (.list cfgs) => cfgs.any (tlsCfgMatches host)
  | _ => false

/-- Spec wording: one URL per Ingress rule that carries a host, in
rule order. -/
def specRuleUrls (spec : List (String × YVal)) (rule : YVal) : List String :=
  match rule with
  | .map rkvs =>
      match lookupStr rkvs "host" with
      | some host =>
          [(if specTlsForHost spec host then "https://" else "http://") ++ pyStr host]
      | none => []
  | _ => []

/-- Spec wording: a Route with a host yields one URL, https exactly
when `spec.tls` is present and non-empty (absent or empty tls gives
http). -/
def specRouteUrls (kvs : List (String × YVal)) : List String :=
  match lookupStr kvs "spec" with
  | some (.map spec) =>
      match lookupStr spec "host" with
      | some host =>
          let tls :=
            match lookupStr spec "tls" with
            | some t => yTruthy t
            | none => false
          [(if tls then "https://" else "http://") ++ pyStr host]
      | none => []
  | _ => []

/-- Spec wording: an Ingress yields one URL per rule with a host, in
rule order. -/
def specIngressUrls (kvs : List (String × YVal)) : List String :=
  match lookupStr kvs "spec" with
  | some (.map spec) =>
      match lookupStr spec "rules" with
      | some (.list rules) => (rules.map (specRuleUrls spec)).flatten
      | _ => []
  | _ => []

/-- Spec wording of the per-document extraction: a recognized Route
document contributes its route URL, a recognized Ingress document its
rule URLs, and every other document contributes nothing. -/
def specDocUrls (v : YVal) : List String :=
  match v with
  | .map kvs =>
      match lookupStr kvs "kind", lookupStr kvs "apiVersion" with
      | some kind, some apiVersion =>
          (if yEq kind (.s "Route") && yEq apiVersion (.s "route.openshift.io/v1") then
            specRouteUrls kvs
          else []) ++
          (if yEq kind (.s "Ingress") && yEq apiVersion (.s "networking.k8s.io/v1") then
            specIngressUrls kvs
          else [])
      | _, _ => []
  | _ => []

/-- Spec wording: URLs in document order, then rule order within a
document. -/
def specExtract (docs : List YDoc) : List String :=
  (docs.map fun d => match d with | .ok v => specDocUrls v | .error _ => []).flatten

/-! ### Well-formedness

`wellFormedDocs` delimits the inputs on which the source extractor
takes no exception path: all documents parse; a non-null document with
a `kind` key also carries `apiVersion`; a recognized Route document
has a mapping `spec`; a recognized Ingress document has a mapping
`spec` whose `rules` is a list of mappings, and whose `tls`, when
present, is a list of mappings whose `hosts` fields, when present, are
lists. -/

/-- An Ingress rule the source can examine without raising. -/
def ruleOK : YVal → Bool
  | .map _ => true
  | _ => false

/-- A `spec.tls` entry the source can examine without raising. -/
def tlsEntryOK : YVal → Bool
  | .map ckvs =>
      match lookupStr ckvs "hosts" with
      | some (.list _) => true
      | some _ => false
      | none => true
  | _ => false

/-- The `rules` of an Ingress `spec` have the shape the source can
iterate without raising. -/
def rulesShapeOK (spec : List (String × YVal)) : Bool :=
  match lookupStr spec "rules" with
  | some (.list rules) => rules.all ruleOK
  | _ => false

/-- The `tls` of an Ingress `spec`, when present, has the shape the
source can scan without raising. -/
def tlsShapeOK (spec : List (String × YVal)) : Bool :=
  match lookupStr spec "tls" with
  | none => true
  | some (.list cfgs) => cfgs.all tlsEntryOK
  | some _ => false

/-- A document the source can examine without raising. -/
def docOK : YVal → Bool
  | .null => true
  | .b _ => false
  | .i _ => false
  | .s str => !(decide ("kind".toList <:+: str.toList))
  | .list xs => !(xs.any fun e => yEq e (.s "kind"))
  | .map kvs =>
      match lookupStr kvs "kind" with
      | none => true
      | some kind =>
        match lookupStr kvs "apiVersion" with
        | none => false
        | some apiVersion =>
          (if yEq kind (.s "Route") && yEq apiVersion (.s "route.openshift.io/v1") then
             match lookupStr kvs "spec" with
             | some (.map _) => true
             | _ => false
           else true) &&
          (if yEq kind (.s "Ingress") && yEq apiVersion (.s "networking.k8s.io/v1") then
             match lookupStr kvs "spec" with
             | some (.map spec) => rulesShapeOK spec && tlsShapeOK spec
             | _ => false
           else true)

/-- All documents parse and are `docOK`. -/
def wellFormedDocs (docs : List YDoc) : Bool :=
  docs.all fun d => match d with | .ok v => docOK v | .error _ => false

/-- A document the extractor skips (per the spec: parses to null or
lacks a `kind` field). -/
def skippableDoc : YDoc → Bool
  | .ok .null => true
  | .ok (.map kvs) => !(kvs.any fun kv => kv.1 == "kind")
  | _ => false

/-! ## External command environment

A run of either script is determined by the outcomes of the external
commands it invokes.  `ShEnv` fixes one outcome per invocation (the
indexed entries give the outcome of the i-th invocation of the
commands that can be retried). -/

/-- A failed `sh` command: `out` is the text captured from the
combined stdout/stderr streams (what the regex classification reads),
`errStr` is `str()` of the raised `sh.ErrorReturnCode` (what the
`f"...: {error}"` messages interpolate). -/
structure ShFail where
  out : String
  errStr : String
deriving DecidableEq, Repr

/-- Outcomes of the external commands, one entry per call site. -/
structure ShEnv where
  gitClone : Except ShFail Unit
  gitCheckoutExisting : Except ShFail Unit
  gitCheckoutNew : Except ShFail Unit
  gitConfigUserEmail : Except ShFail Unit
  gitConfigUserName : Except ShFail Unit
  yqUpdate : Except ShFail Unit
  gitAdd : Except ShFail Unit
  gitCommit : Except ShFail Unit
  gitPush : Except ShFail Unit
  argocdLogin : Except ShFail Unit
  argocdAppCreate : Except ShFail Unit
  argocdAppWaitOperation : Nat → Except ShFail Unit
  argocdAppSync : Nat → Except ShFail Unit
  argocdAppWaitHealth : Nat → Except ShFail Unit
  argocdAppManifests : Except ShFail Unit

/-! ## The sync/retry orchestration (`_argocd_app_sync` and friends) -/

/-- The module constant `MAX_ATTEMPT_TO_WAIT_FOR_ARGOCD_OP_RETRIES` (2). -/
def MAX_ATTEMPT_TO_WAIT_FOR_ARGOCD_OP_RETRIES : Nat := 2

/-- The module constant `MAX_ATTEMPT_TO_WAIT_FOR_ARGOCD_HEALTH_RETRIES` (value
2; note that the health loop in the source actually ranges over the
`OP` constant above, not this one — both are 2). -/
def MAX_ATTEMPT_TO_WAIT_FOR_ARGOCD_HEALTH_RETRIES : Nat := 2

/-- Message raised by `_argocd_app_wait_for_operation` on failure. -/
def waitForOperationMsg (name errStr : String) : String :=
  "Error waiting for existing ArgoCD operations on Application (" ++ name ++ "): " ++ errStr

/-- Translation of `_argocd_app_wait_for_operation` (its i-th
invocation): any failure of `argocd app wait --operation` raises
immediately; there is no classification and no retry here. -/
def argocd_app_wait_for_operation (env : ShEnv) (i : Nat) (name : String) : Except PyExc Unit :=
  match env.argocdAppWaitOperation i with
  | .ok _ => .ok ()
  | .error e => .error (.strRaise (waitForOperationMsg name e.errStr))

/-- Message raised by `_argocd_app_wait_for_health` on a failure not
classified as a degraded-health transition. -/
def waitForHealthyMsg (name errStr : String) : String :=
  "Error waiting for Healthy ArgoCD Application (" ++ name ++ "): " ++ errStr

/-- The `for wait_for_health_retry in range(MAX_ATTEMPT_TO_WAIT_FOR_ARGOCD_OP_RETRIES)`
loop of `_argocd_app_wait_for_health`, with `fuel` remaining iterations
and `i` the index of the next health-wait invocation.  On success the
loop breaks; on a failure matching the degraded-transition pattern it
continues with the next iteration; on any other failure it raises.
When the range is exhausted (`fuel = 0`) the `for` loop simply ends
and the function returns normally. -/
def healthLoop (env : ShEnv) (name : String) : Nat → Nat → Except PyExc Unit
  | 0, _ => .ok ()
  | fuel + 1, i =>
    match env.argocdAppWaitHealth i with
    | .ok _ => .ok ()
    | .error e =>
      match classifyHealthError e.out with
      | .degradedTransient => healthLoop env name fuel (i + 1)
      | .fatal => .error (.strRaise (waitForHealthyMsg name e.errStr))

/-- Translation of `_argocd_app_wait_for_health`. -/
def argocd_app_wait_for_health (env : ShEnv) (name : String) : Except PyExc Unit :=
  healthLoop env name MAX_ATTEMPT_TO_WAIT_FOR_ARGOCD_OP_RETRIES 0

/-- The prune guidance appended to the sync failure message when the
`argocd_sync_prune` argument is falsy (`_argocd_app_sync`,
lines 581-589). -/
def pruneWarningText : String :=
  ". Sync 'prune' option is disabled." ++
  " If sync error (see logs) was due to resource(s) that need to be pruned," ++
  " and the pruneable resources are intentionally there then see the ArgoCD" ++
  " documentation for instructions for argo to ignore the resource(s)." ++
  " See: https://argoproj.github.io/argo-cd/user-guide/sync-options/#no-prune-resources" ++
  " and https://argoproj.github.io/argo-cd/user-guide/compare-options/#ignoring-resources-that-are-extraneous"

/-- The message raised by `_argocd_app_sync` on a sync failure not
classified as contention. -/
def syncFailMsg (name : String) (prune : YVal) (errStr : String) : String :=
  "Error synchronization ArgoCD Application (" ++ name ++ ")" ++
  (if yTruthy prune then "" else pruneWarningText) ++ ": " ++ errStr

/-- The `argocd_sync_additional_flags` list: `--prune` is appended exactly when
the `argocd_sync_prune` argument is truthy. -/
def syncAdditionalFlags (prune : YVal) : List String :=
  if yTruthy prune then ["--prune"] else []

/-- How the `for wait_for_op_retry in range(...)` loop of
`_argocd_app_sync` ended: `broke` via the `break` after a successful
sync, `exhausted` when the range ran out after a `continue`. -/
inductive SyncLoopExit where
  | broke
  | exhausted
deriving DecidableEq, Repr

/-- The wait/sync loop of `_argocd_app_sync`: each iteration waits for
existing operations (any failure there raises immediately), then
requests a sync; a sync failure matching the operation-in-progress
pattern `continue`s, any other sync failure raises (with prune
guidance when the prune argument is falsy).  Exhausting the range
after a `continue` ends the loop without raising. -/
def syncLoop (env : ShEnv) (name : String) (prune : YVal) : Nat → Nat → Except PyExc SyncLoopExit
  | 0, _ => .ok .exhausted
  | fuel + 1, i =>
    match argocd_app_wait_for_operation env i name with
    | .error e => .error e
    | .ok _ =>
      match env.argocdAppSync i with
      | .ok _ => .ok .broke
      | .error e =>
        match classifySyncError e.out with
        | .contention => syncLoop env name prune fuel (i + 1)
        | .fatal => .error (.strRaise (syncFailMsg name prune e.errStr))

/-- Translation of `_argocd_app_sync`: run the wait/sync loop, then —
whether the loop broke after a successful sync or exhausted its range
after repeated contention — fall through to
`_argocd_app_wait_for_health`. -/
def argocd_app_sync (env : ShEnv) (name : String) (prune : YVal) : Except PyExc Unit :=
  match syncLoop env name prune MAX_ATTEMPT_TO_WAIT_FOR_ARGOCD_OP_RETRIES 0 with
  | .error e => .error e
  | .ok _ => argocd_app_wait_for_health env name

/-! ## Repository helpers shared by both scripts -/

/-- Result-map values of the `results` dict. -/
inductive RVal where
  | s (v : String)
  | list (vs : List String)
  | b (v : Bool)
deriving DecidableEq, Repr

/-- Assignment `results[k] = v` on the Python dict. -/
def setKey (m : List (String × RVal)) (k : String) (v : RVal) : List (String × RVal) :=
  match m with
  | [] => [(k, v)]
  | (k', v') :: rest => if k' == k then (k, v) :: rest else (k', v') :: setKey rest k v

/-- Lookup `results.get(k)` on the Python dict. -/
def lookupRes : List (String × RVal) → String → Option RVal
  | [], _ => none
  | (k', v) :: rest, k => if k' == k then some v else lookupRes rest k

/-- Translation of `clone_repo` (identical in both scripts): clone,
check out existing-else-new branch, configure user.email and
user.name; every failure handler executes `raise f"..."`.  (The
credential-bearing clone URL built from `GIT_REPO_REGEX` only changes
the clone target, not the control flow or any message, and is not
modelled.) -/
def clone_repo (env : ShEnv) (repoDir repoUrl repoBranch gitEmail gitName : String) :
    Except PyExc Unit :=
  match env.gitClone with
  | .error e =>
      .error (.strRaise ("Error cloning repository (" ++ repoUrl ++ "): " ++ e.errStr))
  | .ok _ =>
    match (match env.gitCheckoutExisting with
           | .ok _ => Except.ok ()
           | .error _ => env.gitCheckoutNew) with
    | .error e =>
        .error (.strRaise ("Unexpected error checking out new or existing branch (" ++
          repoBranch ++ ") from repository (" ++ repoUrl ++ "): " ++ e.errStr))
    | .ok _ =>
      match env.gitConfigUserEmail with
      | .error e =>
          .error (.strRaise ("Unexpected error configuring git user.email (" ++ gitEmail ++
            ") and user.name (" ++ gitName ++ ") for repository (" ++ repoUrl ++
            ") in directory (" ++ repoDir ++ "): " ++ e.errStr))
      | .ok _ =>
        match env.gitConfigUserName with
        | .error e =>
            .error (.strRaise ("Unexpected error configuring git user.email (" ++ gitEmail ++
              ") and user.name (" ++ gitName ++ ") for repository (" ++ repoUrl ++
              ") in directory (" ++ repoDir ++ "): " ++ e.errStr))
        | .ok _ => .ok ()

/-- Translation of `_update_yaml_file_value` (both scripts raise the
same message on a failing yq invocation). -/
def update_yaml_file_value (env : ShEnv) (file yqPath value : String) : Except PyExc Unit :=
  match env.yqUpdate with
  | .ok _ => .ok ()
  | .error e =>
      .error (.strRaise ("Error updating YAML file (" ++ file ++ ") target (" ++ yqPath ++
        ") with value (" ++ value ++ "): " ++ e.errStr))

/-- Translation of `_git_commit_file` from `argocd-deploy.py`: both
failure handlers execute `raise f"..."` (a string). -/
def git_commit_file (env : ShEnv) (filePath repoDir : String) : Except PyExc Unit :=
  match env.gitAdd with
  | .error e =>
      .error (.strRaise ("Unexpected error adding file (" ++ filePath ++
        ") to commit in git repository (" ++ repoDir ++ "): " ++ e.errStr))
  | .ok _ =>
    match env.gitCommit with
    | .error e =>
        .error (.strRaise ("Unexpected error commiting file (" ++ filePath ++
          ") in git repository (" ++ repoDir ++ "): " ++ e.errStr))
    | .ok _ => .ok ()

/-- Translation of `_git_commit_file` from `update-gitops-repo.py`:
the add handler raises a string, but the commit handler raises a
proper `RuntimeError`. -/
def git_commit_file_gitops (env : ShEnv) (filePath repoDir : String) : Except PyExc Unit :=
  match env.gitAdd with
  | .error e =>
      .error (.strRaise ("Unexpected error adding file (" ++ filePath ++
        ") to commit in git repository (" ++ repoDir ++ "): " ++ e.errStr))
  | .ok _ =>
    match env.gitCommit with
    | .error e =>
        .error (.runtimeError ("Unexpected error commiting file (" ++ filePath ++
          ") in git repository (" ++ repoDir ++ "): " ++ e.errStr))
    | .ok _ => .ok ()

/-! ## The `deploy` pipeline of `argocd-deploy.py` -/

namespace ArgocdDeploy

/-- Configuration constants bound at the top of `deploy`
(lines 733-762). -/
def deployment_config_repo : String :=
  "http://gitea.tssc.rht-set.com/ploigos-reference-applications/reference-quarkus-mvn-cloud-resources_tekton_workflow-minimal.git"

def deployment_config_repo_branch : String := "main"

def argocd_app_name : String := "tekton-task-app"

def container_image_address : String := ""

def environment : String := "DEV"

def argocd_sync_retry_limit : Int := 20

/-- The configured prune flag: `argocd_sync_prune=False` (line 761). -/
def argocd_sync_prune : YVal := .b false

/-- The `repo_dir` returned by `create_working_dir_sub_dir('.', 'deployment-config-repo')`. -/
def repo_dir : String := "./deployment-config-repo"

/-- The values-file path passed to `_update_yaml_file_value`. -/
def values_file_path : String :=
  "./deployment-config-repo/charts/reference-quarkus-mvn-deploy/values-DEV.yaml"

/-- The chart-relative path passed to `_git_commit_file`. -/
def commit_file_path : String := "charts/reference-quarkus-mvn-deploy/values-DEV.yaml"

/-- The `results` dict just before the `try` block: lines 764-765
(note line 764 assigns the *string literal* `'argocd_app_name'`). -/
def initResults : List (String × RVal) :=
  setKey (setKey [] "argocd-app-name" (.s "argocd_app_name"))
    "container-image-deployed-address" (.s container_image_address)

/-- The argument `deploy` passes for `argocd_sync_prune` at its
`_argocd_app_sync` call: line 848 reads
`argocd_sync_prune=argocd_sync_retry_limit`, so the integer retry
limit (20), not the configured `argocd_sync_prune` flag, is passed. -/
def syncCallPruneArgument : YVal := .i argocd_sync_retry_limit

/-- The sync step as `deploy` invokes it (lines 844-849). -/
def syncStep (env : ShEnv) : Except PyExc Unit :=
  argocd_app_sync env argocd_app_name syncCallPruneArgument

/-- The `try` block of `deploy`, as far as it can get: clone the
configuration repository, update the values file, commit it, then
call `_git_push_deployment_config_repo(deployment_config_repo=...,
deployment_config_repo_dir=...)` (lines 807-810).  That call supplies
only two of the function's four required positional parameters
(`username` and `password` have no defaults), so the call itself
raises `TypeError` before the push function's body runs; every later
statement of the `try` block (ArgoCD sign-in, app create-or-update,
sync, manifest fetch, URL extraction) is unreachable.  Returns the
`results` accumulated so far and the exception, if any, that left the
block. -/
def deployBody (env : ShEnv) : List (String × RVal) × Option PyExc :=
  let results := initResults
  match clone_repo env repo_dir deployment_config_repo deployment_config_repo_branch "" "" with
  | .error e => (results, some e)
  | .ok _ =>
    match update_yaml_file_value env values_file_path "image.tag" container_image_address with
    | .error e => (results, some e)
    | .ok _ =>
      match git_commit_file env commit_file_path repo_dir with
      | .error e => (results, some e)
      | .ok _ =>
        (results, some (.typeError
          "_git_push_deployment_config_repo() missing 2 required positional arguments: 'username' and 'password'"))

/-- Translation of `deploy` from `argocd-deploy.py`: run the body;
`except RuntimeError` turns a caught `RuntimeError` into
`results['success'] = False` plus `results['message']`; any other
exception propagates out of `deploy`. -/
def deploy (env : ShEnv) : Except PyExc (List (String × RVal)) :=
  match deployBody env with
  | (results, none) => .ok results
  | (results, some e) =>
    if e.caughtByRuntimeHandler then
      .ok (setKey (setKey results "success" (.b false)) "message"
        (.s ("Error deploying to environment (" ++ environment ++ "): " ++ e.text)))
    else .error e

end ArgocdDeploy

/-! ## The `deploy` pipeline of `update-gitops-repo.py` -/

namespace UpdateGitopsRepo

def deployment_config_repo : String :=
  "https://github.com/dwinchell-robot/reference-quarkus-mvn-cloud-resources_tekton_workflow-minimal.git"

def deployment_config_repo_branch : String := "main"

def git_email : String := "tektondeploytask@example.com"

def git_name : String := "Tekton Deploy Task"

def git_username : String := "dwinchell-robot"

def environment : String := "DEV"

def repo_dir : String := "./deployment-config-repo"

def values_file_path : String :=
  "./deployment-config-repo/charts/reference-quarkus-mvn-deploy/values-DEV.yaml"

def commit_file_path : String := "charts/reference-quarkus-mvn-deploy/values-DEV.yaml"

/-- The push URL `_git_push_deployment_config_repo` builds for the
https-protocol config repo: protocol, then `username:password@`, then
the address part (the `GIT_REPO_REGEX` split of the fixed repo URL is
precomputed here). -/
def pushUrlWithAuth (username password : String) : String :=
  "https://" ++ username ++ ":" ++ password ++
  "@github.com/dwinchell-robot/reference-quarkus-mvn-cloud-resources_tekton_workflow-minimal.git"

/-- Translation of `_git_push_deployment_config_repo` /  `_git_push`
as called by this script (all four arguments supplied; the repo URL
is https, so the push uses the credential URL): a push failure
executes `raise f"..."` (a string). -/
def git_push_deployment_config_repo (env : ShEnv) (username password : String) :
    Except PyExc Unit :=
  match env.gitPush with
  | .ok _ => .ok ()
  | .error e =>
      .error (.strRaise ("Error pushing commits from repository directory (" ++ repo_dir ++
        ") to repository (" ++ pushUrlWithAuth username password ++ "): " ++ e.errStr))

/-- The `results` dict just before the `try` block (line 320). -/
def initResults (containerImageAddress : String) : List (String × RVal) :=
  setKey [] "container-image-deployed-address" (.s containerImageAddress)

/-- The `try` block of `deploy`: clone, update the values file,
commit, push.  Returns the `results` accumulated so far and the
exception, if any, that left the block. -/
def deployBody (env : ShEnv) (gitPassword containerImageAddress : String) :
    List (String × RVal) × Option PyExc :=
  let results := initResults containerImageAddress
  match clone_repo env repo_dir deployment_config_repo deployment_config_repo_branch
      git_email git_name with
  | .error e => (results, some e)
  | .ok _ =>
    match update_yaml_file_value env values_file_path ".image.tag" containerImageAddress with
    | .error e => (results, some e)
    | .ok _ =>
      match git_commit_file_gitops env commit_file_path repo_dir with
      | .error e => (results, some e)
      | .ok _ =>
        match git_push_deployment_config_repo env git_username gitPassword with
        | .error e => (results, some e)
        | .ok _ => (results, none)

/-- Translation of `deploy` from `update-gitops-repo.py`. -/
def deploy (env : ShEnv) (gitPassword containerImageAddress : String) :
    Except PyExc (List (String × RVal)) :=
  match deployBody env gitPassword containerImageAddress with
  | (results, none) => .ok results
  | (results, some e) =>
    if e.caughtByRuntimeHandler then
      .ok (setKey (setKey results "success" (.b false)) "message"
        (.s ("Error deploying to environment (" ++ environment ++ "): " ++ e.text)))
    else .error e

end UpdateGitopsRepo

/-! ## Environments used by the concrete evaluations -/

/-- Every external command succeeds. -/
def allOkEnv : ShEnv where
  gitClone := .ok ()
  gitCheckoutExisting := .ok ()
  gitCheckoutNew := .ok ()
  gitConfigUserEmail := .ok ()
  gitConfigUserName := .ok ()
  yqUpdate := .ok ()
  gitAdd := .ok ()
  gitCommit := .ok ()
  gitPush := .ok ()
  argocdLogin := .ok ()
  argocdAppCreate := .ok ()
  argocdAppWaitOperation := fun _ => .ok ()
  argocdAppSync := fun _ => .ok ()
  argocdAppWaitHealth := fun _ => .ok ()
  argocdAppManifests := .ok ()

/-- Captured output of a sync failure that the operation-in-progress
pattern classifies as contention. -/
def contentionFailText : String :=
  "FailedPrecondition desc = another operation is already in progress"

/-- Captured output of a health-wait failure that the degraded
pattern classifies as transient. -/
def degradedFailText : String :=
  "level=fatal msg=health state has transitioned from Healthy to Degraded"

/-- Every sync request fails with a contention-classified error. -/
def allContentionEnv : ShEnv :=
  { allOkEnv with argocdAppSync := fun _ => .error ⟨contentionFailText, "sync command failed"⟩ }

/-- Every health wait fails with a degraded-classified error. -/
def allDegradedEnv : ShEnv :=
  { allOkEnv with argocdAppWaitHealth := fun _ => .error ⟨degradedFailText, "wait command failed"⟩ }

/-- The sync request fails with an error matching neither pattern. -/
def fatalSyncEnv : ShEnv :=
  { allOkEnv with argocdAppSync := fun _ => .error ⟨"some fatal sync failure", "sync cmd error"⟩ }

/-- The very first wait-for-operation fails. -/
def waitOpFailEnv : ShEnv :=
  { allOkEnv with argocdAppWaitOperation := fun _ => .error ⟨"", "wait op failed"⟩ }

/-- The first wait-for-operation succeeds, the first sync fails with
contention, and the second wait-for-operation fails. -/
def waitOpFailLaterEnv : ShEnv :=
  { allOkEnv with
    argocdAppWaitOperation := fun i => if i == 0 then .ok () else .error ⟨"", "wait op failed 2"⟩
    argocdAppSync := fun _ => .error ⟨contentionFailText, "sync command failed"⟩ }

/-- A small well-formed manifest: a Route with non-empty tls, a Route
without tls, an Ingress with one tls-listed host and one unlisted
host, a ConfigMap, and a null document. -/
def exampleManifestDocs : List YDoc :=
  [.ok (.map [("kind", .s "Route"), ("apiVersion", .s "route.openshift.io/v1"),
     ("spec", .map [("host", .s "a.example.com"),
       ("tls", .map [("termination", .s "edge")])])]),
   .ok (.map [("kind", .s "Route"), ("apiVersion", .s "route.openshift.io/v1"),
     ("spec", .map [("host", .s "b.example.com")])]),
   .ok (.map [("kind", .s "Ingress"), ("apiVersion", .s "networking.k8s.io/v1"),
     ("spec", .map [
       ("tls", .list [.map [("hosts", .list [.s "c.example.com"])]]),
       ("rules", .list [.map [("host", .s "c.example.com")],
                        .map [("host", .s "d.example.com")]])])]),
   .ok (.map [("kind", .s "ConfigMap"), ("apiVersion", .s "v1")]),
   .ok .null]

/-! ## Matcher lemmas -/

theorem prefixEq_append (w cs : List Char) : prefixEq w (w ++ cs) = true := by
  induction w with
  | nil => rfl
  | cons a as ih => simp [prefixEq, ih]

theorem prefixEq_exists {w cs : List Char} (h : prefixEq w cs = true) : ∃ t, cs = w ++ t := by
  induction w generalizing cs with
  | nil => exact ⟨cs, rfl⟩
  | cons a as ih =>
    cases cs with
    | nil => simp [prefixEq] at h
    | cons b bs =>
      simp only [prefixEq, Bool.and_eq_true, beq_iff_eq] at h
      obtain ⟨t, ht⟩ := ih h.2
      exact ⟨t, by simp [h.1, ht]⟩

theorem contains_of_drop {w cs : List Char} {n : Nat} (h : w <:+: cs.drop n) :
    w <:+: cs := by
  obtain ⟨s, t, hst⟩ := h
  exact ⟨cs.take n ++ s, t, by rw [List.append_assoc, List.append_assoc, ← List.append_assoc s,
    hst, List.take_append_drop]⟩

theorem contains_cons {w rest : List Char} {c : Char} (h : w <:+: rest) :
    w <:+: c :: rest := by
  obtain ⟨s, t, hst⟩ := h
  exact ⟨c :: s, t, by simp [hst]⟩

theorem contains_of_suffix {w t cs : List Char} (hs : t <:+ cs) (h : w <:+: t) :
    w <:+: cs := by
  obtain ⟨p, hp⟩ := hs
  obtain ⟨s, t', h'⟩ := h
  exact ⟨p ++ s, t', by rw [List.append_assoc, List.append_assoc, ← List.append_assoc s, h', hp]⟩

theorem contains_of_prefixEq {w cs : List Char} (h : prefixEq w cs = true) : w <:+: cs := by
  obtain ⟨t, ht⟩ := prefixEq_exists h
  exact ⟨[], t, by simp [ht]⟩

theorem mem_wsTails_suffix {t cs : List Char} (ht : t ∈ wsTails cs) : t <:+ cs := by
  induction cs with
  | nil =>
    simp [wsTails] at ht
    simp [ht]
  | cons c rest ih =>
    by_cases hc : isPyWS c = true
    · simp [wsTails, hc] at ht
      rcases ht with ht | ht
      · simp [ht]
      · exact (ih ht).trans ⟨[c], rfl⟩
    · have hc' : isPyWS c = false := by simpa using hc
      simp [wsTails, hc'] at ht
      simp [ht]

/-- A successful match forces every literal of the pattern to occur
inside the text. -/
theorem rmatch_lit_contained (w : List Char) :
    ∀ ps cs, rmatch ps cs = true → RElem.lit w ∈ ps → w <:+: cs := by
  intro ps
  induction ps with
  | nil =>
    intro cs _ hmem
    cases hmem
  | cons p ps ih =>
    intro cs hm hmem
    cases p with
    | lit w' =>
      simp only [rmatch, Bool.and_eq_true] at hm
      rcases List.mem_cons.mp hmem with hw | hw
      · cases hw
        exact contains_of_prefixEq hm.1
      · exact contains_of_drop (ih _ hm.2 hw)
    | anyStar =>
      simp only [rmatch, List.any_eq_true] at hm
      obtain ⟨t, htails, hmt⟩ := hm
      have hw : RElem.lit w ∈ ps := by
        rcases List.mem_cons.mp hmem with hw | hw
        · cases hw
        · exact hw
      exact contains_of_suffix ((List.mem_tails _ _).mp htails) (ih _ hmt hw)
    | anyPlus =>
      cases cs with
      | nil => simp [rmatch] at hm
      | cons c rest =>
        simp only [rmatch, List.any_eq_true] at hm
        obtain ⟨t, htails, hmt⟩ := hm
        have hw : RElem.lit w ∈ ps := by
          rcases List.mem_cons.mp hmem with hw | hw
          · cases hw
          · exact hw
        exact contains_cons
          (contains_of_suffix ((List.mem_tails _ _).mp htails) (ih _ hmt hw))
    | wsOne =>
      cases cs with
      | nil => simp [rmatch] at hm
      | cons c rest =>
        simp only [rmatch, Bool.and_eq_true] at hm
        have hw : RElem.lit w ∈ ps := by
          rcases List.mem_cons.mp hmem with hw | hw
          · cases hw
          · exact hw
        exact contains_cons (ih _ hm.2 hw)
    | wsPlus =>
      cases cs with
      | nil => simp [rmatch] at hm
      | cons c rest =>
        simp only [rmatch, Bool.and_eq_true, List.any_eq_true] at hm
        obtain ⟨_, t, htails, hmt⟩ := hm
        have hw : RElem.lit w ∈ ps := by
          rcases List.mem_cons.mp hmem with hw | hw
          · cases hw
          · exact hw
        exact contains_cons
          (contains_of_suffix (mem_wsTails_suffix htails) (ih _ hmt hw))

theorem rmatch_lit {ps : List RElem} (w : List Char) {cs : List Char} (h : rmatch ps cs = true) :
    rmatch (.lit w :: ps) (w ++ cs) = true := by
  simp [rmatch, prefixEq_append, List.drop_left, h]

theorem rmatch_anyStar {ps : List RElem} {cs : List Char} (pre : List Char)
    (h : rmatch ps cs = true) : rmatch (.anyStar :: ps) (pre ++ cs) = true := by
  simp only [rmatch, List.any_eq_true]
  exact ⟨cs, (List.mem_tails _ _).mpr (List.suffix_append pre cs), h⟩

theorem self_mem_wsTails (cs : List Char) : cs ∈ wsTails cs := by
  cases cs with
  | nil => simp [wsTails]
  | cons c rest =>
    by_cases hc : isPyWS c = true <;> simp [wsTails, hc]

theorem rmatch_wsSingle {ps : List RElem} {cs : List Char} (h : rmatch ps cs = true) :
    rmatch (.wsPlus :: ps) (' ' :: cs) = true := by
  simp only [rmatch, Bool.and_eq_true, List.any_eq_true]
  exact ⟨rfl, cs, self_mem_wsTails cs, h⟩

theorem rmatch_wsOne {ps : List RElem} {cs : List Char} (h : rmatch ps cs = true) :
    rmatch (.wsOne :: ps) (' ' :: cs) = true := by
  simp [rmatch, isPyWS, h]

theorem rmatch_anyPlus {ps : List RElem} {mid cs : List Char} (hmid : mid ≠ [])
    (h : rmatch ps cs = true) : rmatch (.anyPlus :: ps) (mid ++ cs) = true := by
  cases mid with
  | nil => exact absurd rfl hmid
  | cons m ms =>
    simp only [List.cons_append, rmatch, List.any_eq_true]
    exact ⟨cs, (List.mem_tails _ _).mpr (List.suffix_append ms cs), h⟩

theorem opInProgress_matches (a b c : List Char) :
    rmatch opInProgressPattern
      (a ++ "FailedPrecondition".toList ++ b ++
       "another operation is already in progress".toList ++ c) = true := by
  have h0 : rmatch [] c = true := rfl
  have h1 := rmatch_lit "progress".toList h0
  have h2 := rmatch_wsSingle h1
  have h3 := rmatch_lit "in".toList h2
  have h4 := rmatch_wsSingle h3
  have h5 := rmatch_lit "already".toList h4
  have h6 := rmatch_wsSingle h5
  have h7 := rmatch_lit "is".toList h6
  have h8 := rmatch_wsSingle h7
  have h9 := rmatch_lit "operation".toList h8
  have h10 := rmatch_wsSingle h9
  have h11 := rmatch_lit "another".toList h10
  have h12 := rmatch_anyStar b h11
  have h13 := rmatch_lit "FailedPrecondition".toList h12
  have h14 := rmatch_anyStar a h13
  have hph : ("another operation is already in progress".toList : List Char) =
      "another".toList ++ ' ' :: ("operation".toList ++ ' ' :: ("is".toList ++ ' ' ::
        ("already".toList ++ ' ' :: ("in".toList ++ ' ' :: "progress".toList)))) := by decide
  simpa [opInProgressPattern, hph, List.append_assoc] using h14

theorem healthDegraded_matches (a b m c : List Char) (hm : m ≠ []) :
    rmatch healthDegradedPattern
      (a ++ "level=fatal".toList ++ b ++ "health state has transitioned from ".toList ++
       m ++ " to Degraded".toList ++ c) = true := by
  have h0 : rmatch [] c = true := rfl
  have h1 := rmatch_lit "Degraded".toList h0
  have h2 := rmatch_wsSingle h1
  have h3 := rmatch_lit "to".toList h2
  have h4 := rmatch_wsSingle h3
  have h5 := rmatch_anyPlus hm h4
  have h6 := rmatch_wsOne h5
  have h7 := rmatch_lit "from".toList h6
  have h8 := rmatch_wsSingle h7
  have h9 := rmatch_lit "transitioned".toList h8
  have h10 := rmatch_wsSingle h9
  have h11 := rmatch_lit "has".toList h10
  have h12 := rmatch_wsSingle h11
  have h13 := rmatch_lit "state".toList h12
  have h14 := rmatch_wsSingle h13
  have h15 := rmatch_lit "health".toList h14
  have h16 := rmatch_anyStar b h15
  have h17 := rmatch_lit "level=fatal".toList h16
  have h18 := rmatch_anyStar a h17
  have hph1 : ("health state has transitioned from ".toList : List Char) =
      "health".toList ++ ' ' :: ("state".toList ++ ' ' :: ("has".toList ++ ' ' ::
        ("transitioned".toList ++ ' ' :: ("from".toList ++ [' '])))) := by decide
  have hph2 : (" to Degraded".toList : List Char) =
      ' ' :: ("to".toList ++ ' ' :: "Degraded".toList) := by decide
  simpa [healthDegradedPattern, hph1, hph2, List.append_assoc] using h18

theorem toList_ne_nil_of_ne_empty {s : String} (h : s ≠ "") : s.toList ≠ [] := by
  intro hnil
  apply h
  cases s with
  | mk data =>
    simp [String.toList] at hnil
    simp [hnil]

theorem classifySyncError_eq_contention {t : String}
    (h : rmatch opInProgressPattern t.toList = true) :
    classifySyncError t = .contention := by
  simp [classifySyncError]
  exact h

theorem classifyHealthError_eq_degraded {t : String}
    (h : rmatch healthDegradedPattern t.toList = true) :
    classifyHealthError t = .degradedTransient := by
  simp [classifyHealthError]
  exact h

theorem classifySync_contention (pre mid post : String) :
    classifySyncError
      (pre ++ "FailedPrecondition" ++ mid ++
       "another operation is already in progress" ++ post) = .contention :=
  classifySyncError_eq_contention
    (opInProgress_matches pre.toList mid.toList post.toList)

theorem classifyHealth_degraded (pre mid inter post : String) (hi : inter ≠ "") :
    classifyHealthError
      (pre ++ "level=fatal" ++ mid ++ "health state has transitioned from " ++
       inter ++ " to Degraded" ++ post) = .degradedTransient :=
  classifyHealthError_eq_degraded
    (healthDegraded_matches pre.toList mid.toList inter.toList post.toList
      (toList_ne_nil_of_ne_empty hi))

theorem classifySync_fatal_of_no_lit {t : String}
    (h : ¬ (("FailedPrecondition".toList : List Char) <:+: t.toList)) :
    classifySyncError t = .fatal := by
  cases hr : rmatch opInProgressPattern t.toList with
  | true =>
    exact absurd (rmatch_lit_contained "FailedPrecondition".toList _ _ hr (by decide)) h
  | false =>
    unfold classifySyncError
    rw [hr]
    rfl

theorem classifyHealth_fatal_of_no_lit {t : String}
    (h : ¬ (("level=fatal".toList : List Char) <:+: t.toList)) :
    classifyHealthError t = .fatal := by
  cases hr : rmatch healthDegradedPattern t.toList with
  | true =>
    exact absurd (rmatch_lit_contained "level=fatal".toList _ _ hr (by decide)) h
  | false =>
    unfold classifyHealthError
    rw [hr]
    rfl

/-- C5 (amended): the classifications are case-SENSITIVE, not
case-insensitive.  The sync-error classification returns `Contention`
for every text embedding, with the source regex's exact casing, the
literal `FailedPrecondition` followed by the phrase
`another operation is already in progress`, regardless of surrounding
log noise, and returns `Fatal` for any text not containing the
literal `FailedPrecondition`; likewise the health-error
classification returns `DegradedTransient` for every text embedding
`level=fatal` followed by `health state has transitioned from <prior>
to Degraded` (with a non-empty prior state), and `Fatal` for any text
not containing the literal `level=fatal`. -/
theorem C5_classification_case_sensitive
    (pre mid post pre2 mid2 inter post2 : String) (h : inter ≠ "") :
    (classifySyncError (pre ++ "FailedPrecondition" ++ mid ++
        "another operation is already in progress" ++ post) = .contention) ∧
    (∀ t : String, ¬ (("FailedPrecondition".toList : List Char) <:+: t.toList) →
        classifySyncError t = .fatal) ∧
    (classifyHealthError (pre2 ++ "level=fatal" ++ mid2 ++
        "health state has transitioned from " ++ inter ++ " to Degraded" ++ post2) =
        .degradedTransient) ∧
    (∀ t : String, ¬ (("level=fatal".toList : List Char) <:+: t.toList) →
        classifyHealthError t = .fatal) :=
  ⟨classifySync_contention pre mid post,
   fun _ ht => classifySync_fatal_of_no_lit ht,
   classifyHealth_degraded pre2 mid2 inter post2 h,
   fun _ ht => classifyHealth_fatal_of_no_lit ht⟩

/-- C5 counterexample: the claim asserts case-insensitive matching,
but on a lowercase rendering of the precondition-failure phrase the
sync classification returns `Fatal` (the claim demands `Contention`),
and on an uppercase `LEVEL=FATAL` health transition line the health
classification returns `Fatal` (the claim demands
`DegradedTransient`). -/
theorem C5_case_insensitivity_fails :
    classifySyncError
      "failedprecondition: another operation is already in progress" = .fatal ∧
    classifyHealthError
      "LEVEL=FATAL msg=health state has transitioned from Progressing to Degraded" =
      .fatal := by
  exact ⟨by decide, by decide⟩

/-- Witness for `C5_classification_case_sensitive` at concrete
inputs. -/
theorem C5_classification_case_sensitive_witness :
    (classifySyncError ("log: " ++ "FailedPrecondition" ++ " desc = " ++
        "another operation is already in progress" ++ " (tail)") = .contention) ∧
    classifySyncError "unrelated failure text" = .fatal ∧
    (classifyHealthError ("log: " ++ "level=fatal" ++ " msg=" ++
        "health state has transitioned from " ++ "Progressing" ++ " to Degraded" ++
        " (tail)") = .degradedTransient) ∧
    classifyHealthError "unrelated health text" = .fatal := by
  have h := C5_classification_case_sensitive "log: " " desc = " " (tail)" "log: " " msg="
    "Progressing" " (tail)" (by decide)
  exact ⟨h.1, h.2.1 "unrelated failure text" (by decide),
    h.2.2.1, h.2.2.2 "unrelated health text" (by decide)⟩

/-! ## Extractor lemmas -/

theorem any_key_eq_isSome (kvs : List (String × YVal)) (k : String) :
    (kvs.any fun kv => kv.1 == k) = (lookupStr kvs k).isSome := by
  induction kvs with
  | nil => rfl
  | cons kv rest ih =>
    obtain ⟨k', v⟩ := kv
    by_cases h : (k' == k) = true
    · simp [lookupStr, h]
    · have h' : (k' == k) = false := by simpa using h
      simp [lookupStr, h', ih]

theorem tlsEntryLoop_spec {host : YVal} {cfgs : List YVal}
    (h : cfgs.all tlsEntryOK = true) :
    tlsEntryLoop host cfgs = .ok (cfgs.any (tlsCfgMatches host)) := by
  induction cfgs with
  | nil => rfl
  | cons cfg rest ih =>
    rw [List.all_cons, Bool.and_eq_true] at h
    obtain ⟨hc, hrest⟩ := h
    cases cfg with
    | map ckvs =>
      cases hl : lookupStr ckvs "hosts" with
      | none =>
        simp [tlsEntryLoop, pyIn, any_key_eq_isSome, hl, tlsCfgMatches, ih hrest]
      | some hv =>
        rw [tlsEntryOK, hl] at hc
        cases hv with
        | list hosts =>
          cases hm : hosts.any fun e => yEq e host with
          | true =>
            simp [tlsEntryLoop, pyIn, pyGet, any_key_eq_isSome, hl, hm, tlsCfgMatches]
          | false =>
            simp [tlsEntryLoop, pyIn, pyGet, any_key_eq_isSome, hl, hm, tlsCfgMatches,
              ih hrest]
        | null => cases hc
        | b _ => cases hc
        | i _ => cases hc
        | s _ => cases hc
        | map _ => cases hc
    | null => cases hc
    | b _ => cases hc
    | i _ => cases hc
    | s _ => cases hc
    | list _ => cases hc

theorem ingressTls_spec {spec : List (String × YVal)} {host : YVal}
    (h : tlsShapeOK spec = true) :
    ingressTls (.map spec) host = .ok (specTlsForHost spec host) := by
  cases hl : lookupStr spec "tls" with
  | none =>
    simp [ingressTls, pyIn, any_key_eq_isSome, hl, specTlsForHost]
  | some tv =>
    rw [tlsShapeOK, hl] at h
    cases tv with
    | list cfgs =>
      simp [ingressTls, pyIn, pyGet, pyIter, any_key_eq_isSome, hl, specTlsForHost,
        tlsEntryLoop_spec h]
    | null => cases h
    | b _ => cases h
    | i _ => cases h
    | s _ => cases h
    | map _ => cases h

theorem ingressRulesUrls_spec {spec : List (String × YVal)} {rules : List YVal}
    (hrules : rules.all ruleOK = true) (htls : tlsShapeOK spec = true) :
    ingressRulesUrls (.map spec) rules = .ok ((rules.map (specRuleUrls spec)).flatten) := by
  induction rules with
  | nil => rfl
  | cons rule rest ih =>
    rw [List.all_cons, Bool.and_eq_true] at hrules
    obtain ⟨hr, hrest⟩ := hrules
    cases rule with
    | map rkvs =>
      cases hh : lookupStr rkvs "host" with
      | none =>
        simp [ingressRulesUrls, pyIn, any_key_eq_isSome, hh, specRuleUrls, ih hrest]
      | some host =>
        simp [ingressRulesUrls, pyIn, pyGet, any_key_eq_isSome, hh, specRuleUrls,
          ingressTls_spec htls, ih hrest]
    | null => cases hr
    | b _ => cases hr
    | i _ => cases hr
    | s _ => cases hr
    | list _ => cases hr

theorem routeBranch_ok (v kind apiVersion : YVal)
    (hcond : (yEq kind (.s "Route") && yEq apiVersion (.s "route.openshift.io/v1")) = false) :
    routeBranch v kind apiVersion = .ok [] := by
  simp [routeBranch, hcond]

theorem ingressBranch_ok (v kind apiVersion : YVal)
    (hcond : (yEq kind (.s "Ingress") && yEq apiVersion (.s "networking.k8s.io/v1")) = false) :
    ingressBranch v kind apiVersion = .ok [] := by
  simp [ingressBranch, hcond]

theorem routeBranch_spec {kvs spec : List (String × YVal)} {kind apiVersion : YVal}
    (hcond : (yEq kind (.s "Route") && yEq apiVersion (.s "route.openshift.io/v1")) = true)
    (hs : lookupStr kvs "spec" = some (.map spec)) :
    routeBranch (.map kvs) kind apiVersion = .ok (specRouteUrls kvs) := by
  cases hh : lookupStr spec "host" with
  | none =>
    simp [routeBranch, specRouteUrls, pyGet, pyIn, any_key_eq_isSome, hcond, hs, hh]
  | some host =>
    cases ht : lookupStr spec "tls" with
    | none =>
      simp [routeBranch, specRouteUrls, pyGet, pyIn, any_key_eq_isSome, hcond, hs, hh, ht]
    | some t =>
      simp [routeBranch, specRouteUrls, pyGet, pyIn, any_key_eq_isSome, hcond, hs, hh, ht]

theorem ingressBranch_spec {kvs spec : List (String × YVal)} {kind apiVersion : YVal}
    (hcond : (yEq kind (.s "Ingress") && yEq apiVersion (.s "networking.k8s.io/v1")) = true)
    (hs : lookupStr kvs "spec" = some (.map spec))
    (hrshape : rulesShapeOK spec = true) (htshape : tlsShapeOK spec = true) :
    ingressBranch (.map kvs) kind apiVersion = .ok (specIngressUrls kvs) := by
  cases hrl : lookupStr spec "rules" with
  | none => rw [rulesShapeOK, hrl] at hrshape; cases hrshape
  | some rv =>
    rw [rulesShapeOK, hrl] at hrshape
    cases rv with
    | list rules =>
      simp [ingressBranch, specIngressUrls, pyGet, pyIter, hcond, hs, hrl,
        ingressRulesUrls_spec hrshape htshape]
    | null => cases hrshape
    | b _ => cases hrshape
    | i _ => cases hrshape
    | s _ => cases hrshape
    | map _ => cases hrshape

theorem processDoc_spec {v : YVal} (h : docOK v = true) :
    processDoc v = .ok (specDocUrls v) := by
  cases v with
  | null => rfl
  | b _ => cases h
  | i _ => cases h
  | s str =>
    rw [docOK] at h
    have h' : (decide (("kind".toList : List Char) <:+: str.toList)) = false := by
      simpa using h
    have h'' : (decide ((['k', 'i', 'n', 'd'] : List Char) <:+: str.data)) = false := h'
    simp [processDoc, pyIn, specDocUrls, h'']
  | list xs =>
    rw [docOK] at h
    have h' : (xs.any fun e => yEq e (.s "kind")) = false := by simpa using h
    simp [processDoc, pyIn, specDocUrls, h']
  | map kvs =>
    cases hk : lookupStr kvs "kind" with
    | none =>
      have hany : (kvs.any fun kv => kv.1 == "kind") = false := by
        rw [any_key_eq_isSome, hk]
        rfl
      simp [processDoc, pyIn, hany, specDocUrls, hk]
    | some kind =>
      rw [docOK, hk] at h
      have hany : (kvs.any fun kv => kv.1 == "kind") = true := by
        rw [any_key_eq_isSome, hk]
        rfl
      cases ha : lookupStr kvs "apiVersion" with
      | none =>
        rw [ha] at h
        cases h
      | some api =>
        rw [ha, Bool.and_eq_true] at h
        obtain ⟨h1, h2⟩ := h
        have hpd : processDoc (.map kvs) =
            (match routeBranch (.map kvs) kind api with
             | .error e => .error e
             | .ok routeUrls =>
               match ingressBranch (.map kvs) kind api with
               | .error e => .error e
               | .ok ingressUrls => .ok (routeUrls ++ ingressUrls)) := by
          simp [processDoc, pyIn, pyGet, hany, hk, ha]
        cases hb1 : (yEq kind (.s "Route") && yEq api (.s "route.openshift.io/v1")) with
        | false =>
          have hroute := routeBranch_ok (.map kvs) kind api hb1
          cases hb2 : (yEq kind (.s "Ingress") && yEq api (.s "networking.k8s.io/v1")) with
          | false =>
            have hing := ingressBranch_ok (.map kvs) kind api hb2
            rw [hpd, hroute, hing]
            simp [specDocUrls, hk, ha, hb1, hb2]
          | true =>
            rw [hb2] at h2
            simp only [if_true] at h2
            cases hs2 : lookupStr kvs "spec" with
            | none => rw [hs2] at h2; cases h2
            | some sv2 =>
              rw [hs2] at h2
              cases sv2 with
              | map spec2 =>
                rw [Bool.and_eq_true] at h2
                have hing := ingressBranch_spec hb2 hs2 h2.1 h2.2
                rw [hpd, hroute, hing]
                simp [specDocUrls, hk, ha, hb1, hb2]
              | null => cases h2
              | b _ => cases h2
              | i _ => cases h2
              | s _ => cases h2
              | list _ => cases h2
        | true =>
          rw [hb1] at h1
          simp only [if_true] at h1
          cases hs : lookupStr kvs "spec" with
          | none => rw [hs] at h1; cases h1
          | some sv =>
            rw [hs] at h1
            cases sv with
            | map spec =>
              have hroute := routeBranch_spec hb1 hs
              cases hb2 : (yEq kind (.s "Ingress") && yEq api (.s "networking.k8s.io/v1")) with
              | false =>
                have hing := ingressBranch_ok (.map kvs) kind api hb2
                rw [hpd, hroute, hing]
                simp [specDocUrls, hk, ha, hb1, hb2]
              | true =>
                rw [hb2] at h2
                simp only [if_true] at h2
                rw [hs] at h2
                rw [Bool.and_eq_true] at h2
                have hing := ingressBranch_spec hb2 hs h2.1 h2.2
                rw [hpd, hroute, hing]
                simp [specDocUrls, hk, ha, hb1, hb2]
            | null => cases h1
            | b _ => cases h1
            | i _ => cases h1
            | s _ => cases h1
            | list _ => cases h1

/-- C6 (amended): for every manifest input whose documents are
well-formed (`wellFormedDocs`: every parsed non-null document with a
`kind` also carries `apiVersion`; recognized Route documents have a
mapping `spec`; recognized Ingress documents have a mapping `spec`
with a list of mapping rules and, when `tls` is present, a list of
mapping entries whose `hosts` fields are lists), the extractor
returns exactly the spec-worded extraction: URLs accumulated in
document order and, within an Ingress document, in rule order; a
Route host gets https exactly when `spec.tls` is present and
non-empty; an Ingress rule host gets https exactly when that exact
host appears in some entry's `hosts` list under `spec.tls`; any other
kind contributes nothing; empty input yields the empty list.  Without
the proviso the claim fails (see the counterexample): a document of
another kind that lacks `apiVersion` aborts the extraction instead of
contributing nothing. -/
theorem C6_ordered_extraction_on_wellformed_input (docs : List YDoc)
    (h : wellFormedDocs docs = true) :
    getDeployedHostUrls docs = .ok (specExtract docs) := by
  induction docs with
  | nil => rfl
  | cons d ds ih =>
    rw [wellFormedDocs, List.all_cons, Bool.and_eq_true] at h
    obtain ⟨hd, hds⟩ := h
    have ihds := ih hds
    cases d with
    | error e => cases hd
    | ok v =>
      simp only [getDeployedHostUrls]
      rw [processDoc_spec hd, ihds]
      simp [specExtract]

/-- C6 counterexample: the claim says a document of any other kind
(e.g. ConfigMap) contributes nothing, but a `kind: ConfigMap`
document without an `apiVersion` key makes the extractor raise a
`KeyError` instead of returning the empty list. -/
theorem C6_other_kind_without_apiVersion_aborts :
    getDeployedHostUrls [.ok (.map [("kind", .s "ConfigMap")])] =
    .error (.keyError "apiVersion") := by decide

/-- Witness for `C6_ordered_extraction_on_wellformed_input` on a
concrete manifest, with the resulting URL list evaluated. -/
theorem C6_ordered_extraction_witness :
    wellFormedDocs exampleManifestDocs = true ∧
    getDeployedHostUrls exampleManifestDocs = .ok (specExtract exampleManifestDocs) ∧
    specExtract exampleManifestDocs =
      ["https://a.example.com", "http://b.example.com",
       "https://c.example.com", "http://d.example.com"] :=
  ⟨by decide, C6_ordered_extraction_on_wellformed_input exampleManifestDocs (by decide),
   by decide⟩

/-- C3 (amended): the extractor skips, individually and without
error, documents that parse to null and mapping documents lacking a
`kind` key, continuing extraction of the remaining documents; but it
is not exception-free for arbitrary malformed input: a document
carrying a `kind` but no `apiVersion` raises a `KeyError` that aborts
the whole extraction (see the counterexample), and an unparseable
document likewise aborts the extraction rather than being skipped. -/
theorem C3_skips_null_and_kindless_documents (pre rest : List YDoc)
    (h : pre.all skippableDoc = true) :
    getDeployedHostUrls (pre ++ rest) = getDeployedHostUrls rest := by
  induction pre with
  | nil => rfl
  | cons d pre ih =>
    rw [List.all_cons, Bool.and_eq_true] at h
    obtain ⟨hd, hpre⟩ := h
    have hproc : (match d with
        | .error _ => Except.error PyExc.yamlError
        | .ok v => processDoc v) = Except.ok ([] : List String) := by
      cases d with
      | error e => cases hd
      | ok v =>
        cases v with
        | null => rfl
        | map kvs =>
          have hany : (kvs.any fun kv => kv.1 == "kind") = false := by
            simpa [skippableDoc] using hd
          simp [processDoc, pyIn, hany]
        | b _ => cases hd
        | i _ => cases hd
        | s _ => cases hd
        | list _ => cases hd
    show getDeployedHostUrls (d :: (pre ++ rest)) = _
    simp only [getDeployedHostUrls, hproc]
    rw [ih hpre]
    cases getDeployedHostUrls rest <;> simp

/-- C3 counterexample: the claim says the extractor never raises and
skips each offending document individually, but on the single
document `{kind: Route}` (no `apiVersion`) the extraction raises a
`KeyError` instead of returning a list. -/
theorem C3_raises_on_kind_without_apiVersion :
    getDeployedHostUrls [.ok (.map [("kind", .s "Route")])] =
    .error (.keyError "apiVersion") := by decide

/-- Witness for `C3_skips_null_and_kindless_documents`: a null
document and a kindless mapping are skipped and extraction of the
following Route document proceeds. -/
theorem C3_skips_null_and_kindless_documents_witness :
    getDeployedHostUrls
      ([.ok .null, .ok (.map [("foo", .s "bar")])] ++
       [.ok (.map [("kind", .s "Route"), ("apiVersion", .s "route.openshift.io/v1"),
         ("spec", .map [("host", .s "a.example.com")])])]) =
    getDeployedHostUrls
      [.ok (.map [("kind", .s "Route"), ("apiVersion", .s "route.openshift.io/v1"),
        ("spec", .map [("host", .s "a.example.com")])])] :=
  C3_skips_null_and_kindless_documents _ _ (by decide)

/-! ## Orchestration theorems -/

/-- C1 evaluation at the failing input: with every wait succeeding
and every sync request failing with a contention-classified error,
`_argocd_app_sync` performs only two sync attempts (one retry), then
the loop range is exhausted by the final `continue`, the function
falls through to the health wait, and the whole sync operation
returns successfully — no error is raised even though the
application was never synced, where the claim requires the run to
terminate in `Failed`. -/
theorem C1_contention_exhaustion_succeeds :
    argocd_app_sync allContentionEnv "tekton-task-app" (.b true) = .ok () := by decide

/-- C2 evaluation at the failing input: with every health wait
failing with a degraded-classified error,
`_argocd_app_wait_for_health` returns normally once the retry range
is exhausted — no error carrying the original error text is raised,
where the claim requires termination in `Failed`. -/
theorem C2_degraded_exhaustion_returns_success :
    argocd_app_wait_for_health allDegradedEnv "tekton-task-app" = .ok () := by decide

/-- C7 evaluation at the failing input: the pipeline's configuration
sets the prune flag to `False`, but the sync step it invokes receives
the truthy retry limit as its prune argument, so a non-contention
sync failure produces a message with no prune guidance at all. -/
theorem C7_pipeline_prune_guidance_missing :
    ArgocdDeploy.argocd_sync_prune = YVal.b false ∧
    ArgocdDeploy.syncStep fatalSyncEnv =
      .error (.strRaise
        "Error synchronization ArgoCD Application (tekton-task-app): sync cmd error") :=
  ⟨rfl, by decide⟩

/-- C8: every failure of the wait-for-no-active-operation step is
immediately fatal: whether it is the first wait or the re-wait after
a contention-classified sync failure, the failure is wrapped in the
wait-for-operation message and propagated out of `_argocd_app_sync`
unchanged, with no transient classification and no retry of the wait
itself (the conclusion does not depend on the wait's error text, the
sync outcomes, or the health outcomes). -/
theorem C8_wait_failures_immediately_fatal (env : ShEnv) (name : String) (prune : YVal)
    (e : ShFail) :
    (env.argocdAppWaitOperation 0 = .error e →
      argocd_app_sync env name prune =
        .error (.strRaise (waitForOperationMsg name e.errStr))) ∧
    (env.argocdAppWaitOperation 0 = .ok () →
      ∀ f : ShFail, env.argocdAppSync 0 = .error f →
        classifySyncError f.out = .contention →
        env.argocdAppWaitOperation 1 = .error e →
        argocd_app_sync env name prune =
          .error (.strRaise (waitForOperationMsg name e.errStr))) := by
  constructor
  · intro h
    simp [argocd_app_sync, syncLoop, argocd_app_wait_for_operation,
      MAX_ATTEMPT_TO_WAIT_FOR_ARGOCD_OP_RETRIES, h]
  · intro h0 f hf hclass h1
    simp [argocd_app_sync, syncLoop, argocd_app_wait_for_operation,
      MAX_ATTEMPT_TO_WAIT_FOR_ARGOCD_OP_RETRIES, h0, hf, hclass, h1]

/-- Witness for `C8_wait_failures_immediately_fatal`: a first-wait
failure and a re-wait failure after one contention sync failure. -/
theorem C8_wait_failures_witness :
    argocd_app_sync waitOpFailEnv "tekton-task-app" (.b true) =
      .error (.strRaise (waitForOperationMsg "tekton-task-app" "wait op failed")) ∧
    argocd_app_sync waitOpFailLaterEnv "tekton-task-app" (.b true) =
      .error (.strRaise (waitForOperationMsg "tekton-task-app" "wait op failed 2")) := by
  constructor
  · exact (C8_wait_failures_immediately_fatal waitOpFailEnv "tekton-task-app" (.b true)
      ⟨"", "wait op failed"⟩).1 rfl
  · exact (C8_wait_failures_immediately_fatal waitOpFailLaterEnv "tekton-task-app" (.b true)
      ⟨"", "wait op failed 2"⟩).2 rfl ⟨contentionFailText, "sync command failed"⟩ rfl
      (by decide) rfl

/-- C9: the pipeline's `deploy` invokes the sync step with the sync
retry limit (the integer 20, truthy) passed as its prune argument —
even though the pipeline's own configuration sets the prune flag to
`False` — so `--prune` is always appended and the prune-guidance
branch of the failure message is unreachable from the pipeline. -/
theorem C9_sync_invoked_with_retry_limit_as_prune :
    ArgocdDeploy.syncCallPruneArgument = YVal.i 20 ∧
    ArgocdDeploy.argocd_sync_prune = YVal.b false ∧
    yTruthy ArgocdDeploy.syncCallPruneArgument = true ∧
    syncAdditionalFlags ArgocdDeploy.syncCallPruneArgument = ["--prune"] ∧
    ∀ errStr : String,
      syncFailMsg ArgocdDeploy.argocd_app_name ArgocdDeploy.syncCallPruneArgument errStr =
        "Error synchronization ArgoCD Application (tekton-task-app): " ++ errStr := by
  refine ⟨rfl, rfl, by decide, by decide, fun errStr => ?_⟩
  have hX : ("Error synchronization ArgoCD Application (" ++ ArgocdDeploy.argocd_app_name ++
      ")" ++ (if yTruthy ArgocdDeploy.syncCallPruneArgument then "" else pruneWarningText) ++
      ": ") = "Error synchronization ArgoCD Application (tekton-task-app): " := by decide
  exact congrArg (fun z => z ++ errStr) hX


/-! ## Pipeline theorems -/

theorem clone_repo_cases (env : ShEnv) (rd ru rb ge gn : String) :
    clone_repo env rd ru rb ge gn = .ok () ∨
    ∃ s, clone_repo env rd ru rb ge gn = .error (.strRaise s) := by
  cases hc : env.gitClone with
  | error e =>
    right
    simp only [clone_repo, hc]
    exact ⟨_, rfl⟩
  | ok _ =>
    cases hce : env.gitCheckoutExisting <;> cases hcn : env.gitCheckoutNew <;>
      cases hem : env.gitConfigUserEmail <;> cases hnm : env.gitConfigUserName <;>
      first
        | (left; simp [clone_repo, hc, hce, hcn, hem, hnm]; done)
        | (right; simp only [clone_repo, hc, hce, hcn, hem, hnm]; exact ⟨_, rfl⟩)

theorem update_yaml_file_value_cases (env : ShEnv) (f yp v : String) :
    update_yaml_file_value env f yp v = .ok () ∨
    ∃ s, update_yaml_file_value env f yp v = .error (.strRaise s) := by
  cases hy : env.yqUpdate with
  | error e =>
    right
    simp only [update_yaml_file_value, hy]
    exact ⟨_, rfl⟩
  | ok _ => exact .inl (by simp [update_yaml_file_value, hy])

theorem git_commit_file_cases (env : ShEnv) (fp rd : String) :
    git_commit_file env fp rd = .ok () ∨
    ∃ s, git_commit_file env fp rd = .error (.strRaise s) := by
  cases ha : env.gitAdd <;> cases hcm : env.gitCommit <;>
    first
      | (left; simp [git_commit_file, ha, hcm]; done)
      | (right; simp only [git_commit_file, ha, hcm]; exact ⟨_, rfl⟩)

theorem git_commit_file_gitops_cases (env : ShEnv) (fp rd : String) :
    git_commit_file_gitops env fp rd = .ok () ∨
    ∃ e, git_commit_file_gitops env fp rd = .error e := by
  cases ha : env.gitAdd <;> cases hcm : env.gitCommit <;>
    first
      | (left; simp [git_commit_file_gitops, ha, hcm]; done)
      | (right; simp only [git_commit_file_gitops, ha, hcm]; exact ⟨_, rfl⟩)

theorem git_push_deployment_config_repo_cases (env : ShEnv) (u p : String) :
    UpdateGitopsRepo.git_push_deployment_config_repo env u p = .ok () ∨
    ∃ e, UpdateGitopsRepo.git_push_deployment_config_repo env u p = .error e := by
  cases hp : env.gitPush with
  | error e =>
    right
    simp only [UpdateGitopsRepo.git_push_deployment_config_repo, hp]
    exact ⟨_, rfl⟩
  | ok _ => exact .inl (by simp [UpdateGitopsRepo.git_push_deployment_config_repo, hp])

/-- C4 evaluation: for EVERY outcome of the external commands, the
`deploy` of `argocd-deploy.py` propagates an uncaught exception
instead of returning a result map.  Every failure handler on the path
executes `raise f"..."` — raising a string, which is a `TypeError` in
Python 3, not a `RuntimeError`, so `except RuntimeError` never
catches it — and on the all-success path the call to
`_git_push_deployment_config_repo` omits its two required
`username`/`password` parameters and raises `TypeError` itself, so no
run reaches the remaining stages or the normal return. -/
theorem C4_deploy_always_propagates :
    ∀ env : ShEnv, ∃ e : PyExc, ArgocdDeploy.deploy env = .error e := by
  intro env
  rcases clone_repo_cases env ArgocdDeploy.repo_dir ArgocdDeploy.deployment_config_repo
      ArgocdDeploy.deployment_config_repo_branch "" "" with hcl | ⟨s, hcl⟩
  · rcases update_yaml_file_value_cases env ArgocdDeploy.values_file_path "image.tag"
        ArgocdDeploy.container_image_address with hup | ⟨s, hup⟩
    · rcases git_commit_file_cases env ArgocdDeploy.commit_file_path ArgocdDeploy.repo_dir
          with hcm | ⟨s, hcm⟩
      · exact ⟨.typeError
          "_git_push_deployment_config_repo() missing 2 required positional arguments: 'username' and 'password'",
          by simp [ArgocdDeploy.deploy, ArgocdDeploy.deployBody, hcl, hup, hcm,
            PyExc.caughtByRuntimeHandler]⟩
      · exact ⟨.strRaise s, by
          simp [ArgocdDeploy.deploy, ArgocdDeploy.deployBody, hcl, hup, hcm,
            PyExc.caughtByRuntimeHandler]⟩
    · exact ⟨.strRaise s, by
        simp [ArgocdDeploy.deploy, ArgocdDeploy.deployBody, hcl, hup,
          PyExc.caughtByRuntimeHandler]⟩
  · exact ⟨.strRaise s, by
      simp [ArgocdDeploy.deploy, ArgocdDeploy.deployBody, hcl,
        PyExc.caughtByRuntimeHandler]⟩

/-- C10: in every run of `update-gitops-repo.py`'s `deploy` in which
no exception leaves the `try` block (so no error is caught), the
returned result map contains neither a `success` nor a `message` key
— those keys are set only in the `except RuntimeError` branch; and in
`argocd-deploy.py`'s `deploy` no run completes the `try` block at all
(the push call always raises), so its error-free case is vacuous. -/
theorem C10_success_path_has_no_success_key :
    (∀ (env : ShEnv) (gp cia : String) (m : List (String × RVal)),
        UpdateGitopsRepo.deployBody env gp cia = (m, none) →
        UpdateGitopsRepo.deploy env gp cia = .ok m ∧
        lookupRes m "success" = none ∧ lookupRes m "message" = none) ∧
    (∀ (env : ShEnv) (m : List (String × RVal)),
        ArgocdDeploy.deployBody env = (m, none) → False) := by
  constructor
  · intro env gp cia m hbody
    refine ⟨by simp [UpdateGitopsRepo.deploy, hbody], ?_⟩
    rcases clone_repo_cases env UpdateGitopsRepo.repo_dir
        UpdateGitopsRepo.deployment_config_repo
        UpdateGitopsRepo.deployment_config_repo_branch
        UpdateGitopsRepo.git_email UpdateGitopsRepo.git_name with h1 | ⟨s, h1⟩
    · rcases update_yaml_file_value_cases env UpdateGitopsRepo.values_file_path ".image.tag"
          cia with h2 | ⟨s, h2⟩
      · rcases git_commit_file_gitops_cases env UpdateGitopsRepo.commit_file_path
            UpdateGitopsRepo.repo_dir with h3 | ⟨e, h3⟩
        · rcases git_push_deployment_config_repo_cases env UpdateGitopsRepo.git_username gp
              with h4 | ⟨e, h4⟩
          · have hm : m = UpdateGitopsRepo.initResults cia := by
              simp [UpdateGitopsRepo.deployBody, h1, h2, h3, h4] at hbody
              exact hbody.symm
            subst hm
            exact ⟨rfl, rfl⟩
          · simp [UpdateGitopsRepo.deployBody, h1, h2, h3, h4] at hbody
        · simp [UpdateGitopsRepo.deployBody, h1, h2, h3] at hbody
      · simp [UpdateGitopsRepo.deployBody, h1, h2] at hbody
    · simp [UpdateGitopsRepo.deployBody, h1] at hbody
  · intro env m hbody
    rcases clone_repo_cases env ArgocdDeploy.repo_dir ArgocdDeploy.deployment_config_repo
        ArgocdDeploy.deployment_config_repo_branch "" "" with h1 | ⟨s, h1⟩
    · rcases update_yaml_file_value_cases env ArgocdDeploy.values_file_path "image.tag"
          ArgocdDeploy.container_image_address with h2 | ⟨s, h2⟩
      · rcases git_commit_file_cases env ArgocdDeploy.commit_file_path ArgocdDeploy.repo_dir
            with h3 | ⟨s, h3⟩
        · simp [ArgocdDeploy.deployBody, h1, h2, h3] at hbody
        · simp [ArgocdDeploy.deployBody, h1, h2, h3] at hbody
      · simp [ArgocdDeploy.deployBody, h1, h2] at hbody
    · simp [ArgocdDeploy.deployBody, h1] at hbody

/-- Witness for `C10_success_path_has_no_success_key`: an all-success
run of the gitops deploy returns only the image-address artifact, and
the map has no `success` or `message` key. -/
theorem C10_success_path_witness :
    UpdateGitopsRepo.deploy allOkEnv "pw" "registry.example.com/app:1.0" =
      .ok [("container-image-deployed-address", RVal.s "registry.example.com/app:1.0")] ∧
    lookupRes [("container-image-deployed-address", RVal.s "registry.example.com/app:1.0")]
      "success" = none ∧
    lookupRes [("container-image-deployed-address", RVal.s "registry.example.com/app:1.0")]
      "message" = none :=
  C10_success_path_has_no_success_key.1 allOkEnv "pw" "registry.example.com/app:1.0"
    [("container-image-deployed-address", RVal.s "registry.example.com/app:1.0")] (by decide)
